import Mathlib

/-!
Verification development for the CCH data-visualization dashboard
(`src/test2.py`): a shallow embedding of its data pipeline
(load → filter → aggregate) and its navigation state machine,
together with theorems settling the specification's claims.

Numeric columns are embedded as rationals (`ℚ`); the dataframe is a
`List Row`; pandas boolean-mask filtering is `List.filter`; pandas
`groupby`/`pivot_table` (which sort their keys) are embedded with
`List.insertionSort` over the distinct keys; the pandas `mean` of an
empty column (NaN, i.e. "no data") is embedded as `Option.none`.
-/

set_option linter.unusedVariables false

/-- One row of the sheet "Raw data" of `CCH1.0.xlsx` (columns A:J, at most
100 rows), as consumed by `src/test2.py`. -/
structure Row where
  Organisation_Name : String
  Time_of_day : String
  Location : String
  Capacity_tier : String
  Capacity : Nat
  Price_per_hour : ℚ
  Cost_per_person : ℚ
  Minimum_Duration_per_hour : ℚ
  Names_of_Room : String
  deriving DecidableEq, Repr

/-- The four multiselect widgets of the sidebar (`st.sidebar.multiselect`,
lines 55-77): one admitted-value list per categorical column. -/
structure FilterSelection where
  Organisation_Name : List String
  Time_of_day : List String
  Location : List String
  Capacity_tier : List String
  deriving DecidableEq, Repr

/-- pandas `Series.unique`: the distinct values of a column in order of
first appearance (used for both `options=` and `default=` of each
multiselect). -/
def uniqueVals {α : Type} [DecidableEq α] (l : List α) : List α :=
  l.foldl (fun acc x => if x ∈ acc then acc else acc ++ [x]) []

/-- The default filter selection (lines 55-77): every widget defaults to
the full distinct-value set of its column, computed from the unfiltered
dataframe. -/
def fullSelection (df : List Row) : FilterSelection where
  Organisation_Name := uniqueVals (df.map Row.Organisation_Name)
  Time_of_day := uniqueVals (df.map Row.Time_of_day)
  Location := uniqueVals (df.map Row.Location)
  Capacity_tier := uniqueVals (df.map Row.Capacity_tier)

/-- The conjunction of the four `isin` membership masks (lines 80-85). -/
def rowPred (sel : FilterSelection) (r : Row) : Bool :=
  (r.Organisation_Name ∈ sel.Organisation_Name : Bool) &&
  (r.Time_of_day ∈ sel.Time_of_day : Bool) &&
  (r.Location ∈ sel.Location : Bool) &&
  (r.Capacity_tier ∈ sel.Capacity_tier : Bool)

/-- `df_selection` (lines 80-85): the dataframe restricted by the
conjunction of the four `isin` masks. -/
def df_selection (sel : FilterSelection) (df : List Row) : List Row :=
  df.filter (rowPred sel)

/-- pandas `Series.mean`: arithmetic mean of a column, `none` (NaN,
rendered as "no data") on an empty column. -/
def meanQ (l : List ℚ) : Option ℚ :=
  if l = [] then none else some (l.sum / (l.length : ℚ))

/-- `avg_price_per_hour` (line 93): `df_selection["Price_per_hour"].mean()`. -/
def avg_price_per_hour (df : List Row) : Option ℚ :=
  meanQ (df.map Row.Price_per_hour)

/-- The per-row ratio `Price_per_hour / Capacity` of line 94, with the
division-by-zero case made explicit as `none`. -/
def rowRatio (r : Row) : Option ℚ :=
  if r.Capacity = 0 then none else some (r.Price_per_hour / (r.Capacity : ℚ))

/-- Evaluate `rowRatio` on every row, failing if any single division
fails. -/
def ratioColumn : List Row → Option (List ℚ)
  | [] => some []
  | r :: rs =>
    match rowRatio r, ratioColumn rs with
    | some q, some qs => some (q :: qs)
    | _, _ => none

/-- `avg_price_per_person` (line 94):
`(df_selection["Price_per_hour"] / df_selection["Capacity"]).mean()` —
the mean of the per-row ratio column. -/
def avg_price_per_person (df : List Row) : Option ℚ :=
  match ratioColumn df with
  | none => none
  | some qs => meanQ qs

/-- The rows of `df` falling in the group of key value `k`. -/
def groupRows {α : Type} [DecidableEq α] (key : Row → α) (k : α)
    (df : List Row) : List Row :=
  df.filter (fun r => key r = k)

/-- The distinct key values of `df` in the ascending order in which pandas
`groupby`/`pivot_table` emit their groups. -/
def sortedKeys {α : Type} [DecidableEq α] [LinearOrder α] (key : Row → α)
    (df : List Row) : List α :=
  List.insertionSort (· ≤ ·) (uniqueVals (df.map key))

/-- pandas `df.groupby(key)[val].mean().reset_index()`: one `(key, mean)`
pair per distinct key value present in `df`, keys in ascending order. -/
def groupedMean {α : Type} [DecidableEq α] [LinearOrder α] (key : Row → α)
    (val : Row → ℚ) (df : List Row) : List (α × ℚ) :=
  (sortedKeys key df).map (fun k =>
    (k, ((groupRows key k df).map val).sum / ((groupRows key k df).length : ℚ)))

/-- `avg_price_by_tier` (line 92). -/
def avg_price_by_tier (df : List Row) : List (String × ℚ) :=
  groupedMean Row.Capacity_tier Row.Price_per_hour df

/-- `avg_price_by_time` (line 105). -/
def avg_price_by_time (df : List Row) : List (String × ℚ) :=
  groupedMean Row.Time_of_day Row.Price_per_hour df

/-- `avg_price_by_duration` (line 153). -/
def avg_price_by_duration (df : List Row) : List (ℚ × ℚ) :=
  groupedMean Row.Minimum_Duration_per_hour Row.Price_per_hour df

/-- The row labels of the pivot of lines 130-133: the distinct
`Capacity_tier` values of `df`, ascending. -/
def pivotIndex (df : List Row) : List String :=
  sortedKeys Row.Capacity_tier df

/-- The column labels of the pivot of lines 130-133: the distinct
`Time_of_day` values of `df`, ascending. -/
def pivotCols (df : List Row) : List String :=
  sortedKeys Row.Time_of_day df

/-- One cell of `heatmap_data` (lines 130-133): the mean `Cost_per_person`
of the rows matching both keys, `none` (NaN, rendered blank) when no row
matches. -/
def pivotCell (df : List Row) (tier time : String) : Option ℚ :=
  meanQ (((df.filter (fun r => r.Capacity_tier = tier ∧ r.Time_of_day = time)).map
    Row.Cost_per_person))

/-- A descending-by-price order on index-tagged rows: it picks out one
admissible execution of `sort_values(by="Price_per_hour",
ascending=False)` (line 146), the one keeping equal-price rows in
original position. The source itself guarantees less: see
`IsSortValuesDesc`. -/
def priceDescIdx (a b : Nat × Row) : Prop :=
  b.2.Price_per_hour < a.2.Price_per_hour ∨
    (a.2.Price_per_hour = b.2.Price_per_hour ∧ a.1 ≤ b.1)

instance : DecidableRel priceDescIdx := fun a b =>
  inferInstanceAs (Decidable (_ ∨ _))

instance : IsTotal (Nat × Row) priceDescIdx where
  total a b := by
    rcases lt_trichotomy a.2.Price_per_hour b.2.Price_per_hour with h | h | h
    · exact Or.inr (Or.inl h)
    · rcases Nat.le_total a.1 b.1 with h1 | h1
      · exact Or.inl (Or.inr ⟨h, h1⟩)
      · exact Or.inr (Or.inr ⟨h.symm, h1⟩)
    · exact Or.inl (Or.inl h)

instance : IsTrans (Nat × Row) priceDescIdx where
  trans a b c hab hbc := by
    rcases hab with hab | ⟨hab, iab⟩ <;> rcases hbc with hbc | ⟨hbc, ibc⟩
    · exact Or.inl (hbc.trans hab)
    · exact Or.inl (hbc ▸ hab)
    · exact Or.inl (hab.symm ▸ hbc)
    · exact Or.inr ⟨hab.trans hbc, iab.trans ibc⟩

/-- The index-tagged rows of `df_selection` under the tie-stable
execution of line 146's sort, truncated to the first five. -/
def topPairs (df : List Row) : List (Nat × Row) :=
  (List.insertionSort priceDescIdx df.enum).take 5

/-- One admissible value of `top_rooms` (line 146,
`df_selection.sort_values(by="Price_per_hour", ascending=False).head(5)`):
`head(5)` of the tie-stable execution of the sort. Aggregates that do not
depend on tie order (such as the empty-subset case) may use it directly;
see `IsTopRooms` for what the source guarantees in general. -/
def top_rooms (df : List Row) : List Row :=
  (topPairs df).map Prod.snd

/-- What line 146's `sort_values(by="Price_per_hour", ascending=False)`
guarantees about its output: some reordering of the subset that is
descending in `Price_per_hour`. The call uses the default sort kind
(`quicksort`), for which pandas does not document the relative order of
rows with equal price, so the source is embedded as a relation over all
admissible outputs rather than as one function. -/
def IsSortValuesDesc (df out : List Row) : Prop :=
  out.Perm df ∧
    List.Sorted (fun a b : Row => b.Price_per_hour ≤ a.Price_per_hour) out

/-- An admissible result of line 146: `head(5)` of an admissible
`sort_values` output. -/
def IsTopRooms (df out : List Row) : Prop :=
  ∃ sorted, IsSortValuesDesc df sorted ∧ out = sorted.take 5

/-- The two pages of the dashboard (`st.session_state.page`). -/
inductive Page
  | Home
  | About
  deriving DecidableEq, Repr

/-- The user interactions that drive a rerender: the two sidebar
navigation buttons (lines 26-31) and any other interaction (filter
changes), which leaves the page untouched. -/
inductive NavAction
  | clickHome
  | clickAbout
  | otherInteraction
  deriving DecidableEq, Repr

/-- Lines 20-21: `st.session_state.page` is initialized to `"Home"`. -/
def initPage : Page := Page.Home

/-- Lines 26-31: the Home button sets the page to Home, the About Us
button sets it to About; nothing else writes `st.session_state.page`. -/
def navStep (p : Page) : NavAction → Page
  | NavAction.clickHome => Page.Home
  | NavAction.clickAbout => Page.About
  | NavAction.otherInteraction => p

/-- Spec-side reading of §4.4: the mean of the row-wise ratios
`Price_per_hour / Capacity`, as a total function on a nonempty subset. -/
def meanOfRowRatios (df : List Row) : ℚ :=
  ((df.map (fun r => r.Price_per_hour / (r.Capacity : ℚ))).sum) / (df.length : ℚ)

/-- Spec-side reading of the rejected alternative of §4.4:
`mean(Price) / mean(Capacity)`. -/
def ratioOfMeans (df : List Row) : ℚ :=
  ((df.map Row.Price_per_hour).sum / (df.length : ℚ)) /
    ((df.map (fun r => (r.Capacity : ℚ))).sum / (df.length : ℚ))

/-! ### Helper lemmas about `uniqueVals`, `sortedKeys` and `groupRows` -/

theorem mem_foldl_uniq {α : Type} [DecidableEq α] (l : List α) (acc : List α)
    (x : α) :
    x ∈ l.foldl (fun acc x => if x ∈ acc then acc else acc ++ [x]) acc ↔
      x ∈ acc ∨ x ∈ l := by
  induction l generalizing acc with
  | nil => simp
  | cons y l ih =>
    simp only [List.foldl_cons, ih, List.mem_cons]
    by_cases hy : y ∈ acc
    · rw [if_pos hy]
      constructor
      · rintro (h | h)
        · exact Or.inl h
        · exact Or.inr (Or.inr h)
      · rintro (h | h | h)
        · exact Or.inl h
        · exact Or.inl (h ▸ hy)
        · exact Or.inr h
    · rw [if_neg hy]
      simp only [List.mem_append, List.mem_singleton]
      tauto

theorem mem_uniqueVals {α : Type} [DecidableEq α] (l : List α) (x : α) :
    x ∈ uniqueVals l ↔ x ∈ l := by
  unfold uniqueVals
  rw [mem_foldl_uniq]
  simp

theorem nodup_foldl_uniq {α : Type} [DecidableEq α] (l : List α)
    (acc : List α) (h : acc.Nodup) :
    (l.foldl (fun acc x => if x ∈ acc then acc else acc ++ [x]) acc).Nodup := by
  induction l generalizing acc with
  | nil => exact h
  | cons y l ih =>
    simp only [List.foldl_cons]
    apply ih
    by_cases hy : y ∈ acc
    · rwa [if_pos hy]
    · rw [if_neg hy]
      exact List.Nodup.append h (List.nodup_singleton y)
        (List.disjoint_singleton.mpr hy)

theorem nodup_uniqueVals {α : Type} [DecidableEq α] (l : List α) :
    (uniqueVals l).Nodup :=
  nodup_foldl_uniq l [] List.nodup_nil

theorem mem_sortedKeys {α : Type} [DecidableEq α] [LinearOrder α] (key : Row → α)
    (df : List Row) (k : α) :
    k ∈ sortedKeys key df ↔ k ∈ df.map key := by
  unfold sortedKeys
  rw [(List.perm_insertionSort _ _).mem_iff, mem_uniqueVals]

theorem nodup_sortedKeys {α : Type} [DecidableEq α] [LinearOrder α] (key : Row → α)
    (df : List Row) : (sortedKeys key df).Nodup :=
  ((List.perm_insertionSort _ _).nodup_iff).mpr (nodup_uniqueVals _)

theorem sorted_sortedKeys {α : Type} [DecidableEq α] [LinearOrder α] (key : Row → α)
    (df : List Row) : List.Sorted (· ≤ ·) (sortedKeys key df) :=
  List.sorted_insertionSort _ _

theorem groupRows_ne_nil {α : Type} [DecidableEq α] [LinearOrder α] (key : Row → α)
    (df : List Row) (k : α) (hk : k ∈ sortedKeys key df) :
    groupRows key k df ≠ [] := by
  rw [mem_sortedKeys, List.mem_map] at hk
  obtain ⟨r, hr, hkey⟩ := hk
  intro hnil
  have : r ∈ groupRows key k df := by
    unfold groupRows
    rw [List.mem_filter]
    exact ⟨hr, by simp [hkey]⟩
  rw [hnil] at this
  exact List.not_mem_nil r this

/-! ### Sample data used by witnesses -/

/-- Build a row positionally (columns A:J order of the sheet). -/
def mkRow (org time loc tier : String) (cap : Nat) (price cost dur : ℚ)
    (name : String) : Row :=
  ⟨org, time, loc, tier, cap, price, cost, dur, name⟩

/-- A small concrete dataset used by the witnesses. -/
def sampleDf : List Row :=
  [mkRow "OrgA" "Morning" "Coventry" "Small" 2 10 5 1 "R1",
   mkRow "OrgB" "Evening" "Coventry" "Large" 1 20 20 2 "R2",
   mkRow "OrgA" "Evening" "Leamington" "Small" 4 10 3 1 "R3"]

/-! ### Claims -/

/-- C1: if the selection on each of the four categorical columns equals
the full distinct-value set of that column computed from the unfiltered
dataset, the filtered subset equals the full dataset. -/
theorem claim_C1_full_selection_identity (df : List Row)
    (sel : FilterSelection) (h : sel = fullSelection df) :
    df_selection sel df = df := by
  subst h
  unfold df_selection
  apply List.filter_eq_self.mpr
  intro r hr
  unfold rowPred fullSelection
  simp only [Bool.and_eq_true, decide_eq_true_eq]
  refine ⟨⟨⟨?_, ?_⟩, ?_⟩, ?_⟩ <;>
    exact (mem_uniqueVals _ _).mpr (List.mem_map_of_mem _ hr)

/-- Witness for C1 at a concrete dataset. -/
theorem claim_C1_witness :
    df_selection (fullSelection sampleDf) sampleDf = sampleDf :=
  claim_C1_full_selection_identity sampleDf (fullSelection sampleDf) rfl

/-- C9: the filtered subset is a sublist of the dataset — rows of the
dataset only, unchanged, in the original relative order. -/
theorem claim_C9_selection_sublist (sel : FilterSelection) (df : List Row) :
    (df_selection sel df).Sublist df :=
  List.filter_sublist df

/-- C8: the navigation state is one of the two pages Home and About: it
starts at Home, the Home button sets it to Home, the About button sets it
to About, every other interaction leaves it unchanged, and every
interaction sequence ends in Home or About (no terminal state). -/
theorem claim_C8_navigation_state_machine :
    initPage = Page.Home ∧
    (∀ p, navStep p NavAction.clickHome = Page.Home) ∧
    (∀ p, navStep p NavAction.clickAbout = Page.About) ∧
    (∀ p, navStep p NavAction.otherInteraction = p) ∧
    (∀ acts : List NavAction,
      List.foldl navStep initPage acts = Page.Home ∨
      List.foldl navStep initPage acts = Page.About) := by
  refine ⟨rfl, fun p => rfl, fun p => rfl, fun p => rfl, fun acts => ?_⟩
  cases List.foldl navStep initPage acts
  · exact Or.inl rfl
  · exact Or.inr rfl

/-- An empty selection on any single column makes the conjoined `isin`
mask reject every row. -/
theorem df_selection_empty_of_empty_column (df : List Row)
    (sel : FilterSelection)
    (h : sel.Organisation_Name = [] ∨ sel.Time_of_day = [] ∨
      sel.Location = [] ∨ sel.Capacity_tier = []) :
    df_selection sel df = [] := by
  unfold df_selection
  apply List.filter_eq_nil_iff.mpr
  intro r hr
  unfold rowPred
  rcases h with h | h | h | h <;> simp [h]

/-- C2: when the filter selection is empty on any one of the four columns,
the filtered subset is empty and every aggregate view degrades to "no
data" (an empty table or a `none` metric) instead of raising. -/
theorem claim_C2_empty_selection_no_data (df : List Row)
    (sel : FilterSelection)
    (h : sel.Organisation_Name = [] ∨ sel.Time_of_day = [] ∨
      sel.Location = [] ∨ sel.Capacity_tier = []) :
    df_selection sel df = [] ∧
    avg_price_by_tier (df_selection sel df) = [] ∧
    avg_price_by_time (df_selection sel df) = [] ∧
    avg_price_per_person (df_selection sel df) = none ∧
    avg_price_per_hour (df_selection sel df) = none ∧
    pivotIndex (df_selection sel df) = [] ∧
    pivotCols (df_selection sel df) = [] ∧
    top_rooms (df_selection sel df) = [] ∧
    avg_price_by_duration (df_selection sel df) = [] := by
  have hsel := df_selection_empty_of_empty_column df sel h
  rw [hsel]
  exact ⟨rfl, rfl, rfl, rfl, rfl, rfl, rfl, rfl, rfl⟩

/-- Witness for C2 at a concrete dataset and selection. -/
theorem claim_C2_witness :
    df_selection ⟨[], ["Morning"], ["Coventry"], ["Small"]⟩ sampleDf = [] ∧
    avg_price_by_tier (df_selection ⟨[], ["Morning"], ["Coventry"], ["Small"]⟩ sampleDf) = [] ∧
    avg_price_by_time (df_selection ⟨[], ["Morning"], ["Coventry"], ["Small"]⟩ sampleDf) = [] ∧
    avg_price_per_person (df_selection ⟨[], ["Morning"], ["Coventry"], ["Small"]⟩ sampleDf) = none ∧
    avg_price_per_hour (df_selection ⟨[], ["Morning"], ["Coventry"], ["Small"]⟩ sampleDf) = none ∧
    pivotIndex (df_selection ⟨[], ["Morning"], ["Coventry"], ["Small"]⟩ sampleDf) = [] ∧
    pivotCols (df_selection ⟨[], ["Morning"], ["Coventry"], ["Small"]⟩ sampleDf) = [] ∧
    top_rooms (df_selection ⟨[], ["Morning"], ["Coventry"], ["Small"]⟩ sampleDf) = [] ∧
    avg_price_by_duration (df_selection ⟨[], ["Morning"], ["Coventry"], ["Small"]⟩ sampleDf) = [] :=
  claim_C2_empty_selection_no_data sampleDf
    ⟨[], ["Morning"], ["Coventry"], ["Small"]⟩ (Or.inl rfl)

/-- When every row has nonzero `Capacity`, the ratio column evaluates
without hitting the division failure. -/
theorem ratioColumn_eq_of_caps (df : List Row)
    (hcap : ∀ r ∈ df, r.Capacity ≠ 0) :
    ratioColumn df =
      some (df.map (fun r => r.Price_per_hour / (r.Capacity : ℚ))) := by
  induction df with
  | nil => rfl
  | cons r rs ih =>
    have hr : r.Capacity ≠ 0 := hcap r (List.mem_cons_self r rs)
    have hrs := ih (fun x hx => hcap x (List.mem_cons_of_mem r hx))
    simp [ratioColumn, rowRatio, hr, hrs]

/-- `avg_price_per_person` computed through an evaluated ratio column. -/
theorem avg_price_per_person_eq (df : List Row) (qs : List ℚ)
    (h : ratioColumn df = some qs) :
    avg_price_per_person df = meanQ qs := by
  unfold avg_price_per_person
  rw [h]

/-- C3: on a nonempty filtered subset (with the divisions defined), the
average-price-per-person metric is the mean of the per-row ratios
`Price_per_hour / Capacity`; and it is not, in general, the ratio of the
mean price to the mean capacity — the two disagree on a concrete
dataset. -/
theorem claim_C3_mean_of_row_ratios (df : List Row) (hne : df ≠ [])
    (hcap : ∀ r ∈ df, r.Capacity ≠ 0) :
    avg_price_per_person df = some (meanOfRowRatios df) ∧
    ∃ ex : List Row, ex ≠ [] ∧ (∀ r ∈ ex, r.Capacity ≠ 0) ∧
      avg_price_per_person ex ≠ some (ratioOfMeans ex) := by
  constructor
  · rw [avg_price_per_person_eq df _ (ratioColumn_eq_of_caps df hcap)]
    unfold meanQ meanOfRowRatios
    have hmapne :
        df.map (fun r => r.Price_per_hour / (r.Capacity : ℚ)) ≠ [] := by
      simpa [List.map_eq_nil_iff] using hne
    rw [if_neg hmapne, List.length_map]
  · refine ⟨sampleDf, by decide, by decide, ?_⟩
    rw [avg_price_per_person_eq sampleDf _
      (ratioColumn_eq_of_caps sampleDf (by decide))]
    norm_num [sampleDf, mkRow, meanQ, ratioOfMeans]

/-- Witness for C3 at a concrete dataset. -/
theorem claim_C3_witness :
    avg_price_per_person sampleDf = some (meanOfRowRatios sampleDf) ∧
    ∃ ex : List Row, ex ≠ [] ∧ (∀ r ∈ ex, r.Capacity ≠ 0) ∧
      avg_price_per_person ex ≠ some (ratioOfMeans ex) :=
  claim_C3_mean_of_row_ratios sampleDf (by decide) (by decide)

/-- C10: when every row of the filtered subset has nonzero `Capacity`,
the per-row division never fails: each `rowRatio` is defined, the whole
ratio column evaluates, and the metric reduces to the mean of the
pointwise quotients. -/
theorem claim_C10_division_safe (df : List Row)
    (hcap : ∀ r ∈ df, r.Capacity ≠ 0) :
    (∀ r ∈ df, (rowRatio r).isSome) ∧
    (ratioColumn df).isSome ∧
    avg_price_per_person df =
      meanQ (df.map (fun r => r.Price_per_hour / (r.Capacity : ℚ))) := by
  have h := ratioColumn_eq_of_caps df hcap
  refine ⟨?_, by rw [h]; rfl, avg_price_per_person_eq df _ h⟩
  intro r hr
  unfold rowRatio
  rw [if_neg (hcap r hr)]
  rfl

/-- Witness for C10 at a concrete dataset. -/
theorem claim_C10_witness :
    (∀ r ∈ sampleDf, (rowRatio r).isSome) ∧
    (ratioColumn sampleDf).isSome ∧
    avg_price_per_person sampleDf =
      meanQ (sampleDf.map (fun r => r.Price_per_hour / (r.Capacity : ℚ))) :=
  claim_C10_division_safe sampleDf (by decide)

/-- Summing an indicator of a single key over a duplicate-free key list
picks out that key's contribution exactly once. -/
theorem sum_map_ite_eq {α : Type} [DecidableEq α] (ks : List α)
    (hnd : ks.Nodup) (a : α) (ha : a ∈ ks) (c : ℚ) :
    (ks.map (fun k => if a = k then c else 0)).sum = c := by
  induction ks with
  | nil => cases ha
  | cons k ks ih =>
    rw [List.map_cons, List.sum_cons]
    rcases List.mem_cons.mp ha with rfl | ha'
    · rw [if_pos rfl]
      have hzero : (ks.map (fun x => if a = x then c else 0)).sum = 0 := by
        apply List.sum_eq_zero
        intro x hx
        rw [List.mem_map] at hx
        obtain ⟨y, hy, rfl⟩ := hx
        rw [if_neg]
        intro hay
        exact (List.nodup_cons.mp hnd).1 (hay ▸ hy)
      rw [hzero, add_zero]
    · have hak : ¬a = k := by
        intro h
        exact (List.nodup_cons.mp hnd).1 (h ▸ ha')
      rw [if_neg hak, zero_add]
      exact ih (List.nodup_cons.mp hnd).2 ha'

/-- Unfolding `groupRows` over a cons cell. -/
theorem groupRows_cons {α : Type} [DecidableEq α] (key : Row → α) (k : α)
    (r : Row) (df : List Row) :
    groupRows key k (r :: df) =
      if key r = k then r :: groupRows key k df else groupRows key k df := by
  unfold groupRows
  rw [List.filter_cons]
  by_cases h : key r = k <;> simp [h]

/-- Partition identity: over a duplicate-free key list covering every row,
the per-group sums add up to the sum over the whole subset. -/
theorem sum_groupSums {α : Type} [DecidableEq α] (key : Row → α)
    (val : Row → ℚ) (df : List Row) (ks : List α) (hnd : ks.Nodup)
    (hcover : ∀ r ∈ df, key r ∈ ks) :
    (ks.map (fun k => ((groupRows key k df).map val).sum)).sum =
      (df.map val).sum := by
  induction df with
  | nil => simp [groupRows]
  | cons r df ih =>
    have hcov' : ∀ x ∈ df, key x ∈ ks :=
      fun x hx => hcover x (List.mem_cons_of_mem r hx)
    have hr : key r ∈ ks := hcover r (List.mem_cons_self r df)
    have hexp : ∀ k ∈ ks, ((groupRows key k (r :: df)).map val).sum =
        (if key r = k then val r else 0) +
          ((groupRows key k df).map val).sum := by
      intro k _
      rw [groupRows_cons]
      by_cases h : key r = k
      · rw [if_pos h, if_pos h, List.map_cons, List.sum_cons]
      · rw [if_neg h, if_neg h, zero_add]
    calc (ks.map (fun k => ((groupRows key k (r :: df)).map val).sum)).sum
        = (ks.map (fun k => (if key r = k then val r else 0) +
            ((groupRows key k df).map val).sum)).sum := by
          rw [List.map_congr_left hexp]
      _ = (ks.map (fun k => if key r = k then val r else 0)).sum +
            (ks.map (fun k => ((groupRows key k df).map val).sum)).sum := by
          rw [List.sum_map_add]
      _ = val r + (df.map val).sum := by
          rw [sum_map_ite_eq ks hnd (key r) hr, ih hcov']
      _ = ((r :: df).map val).sum := by
          rw [List.map_cons, List.sum_cons]

/-- For every grouped mean, the group means weighted by the group sizes
recover the column total. -/
theorem groupedMean_weighted_sum {α : Type} [DecidableEq α] [LinearOrder α]
    (key : Row → α)
    (val : Row → ℚ) (df : List Row) :
    ((groupedMean key val df).map
      (fun p => p.2 * ((groupRows key p.1 df).length : ℚ))).sum =
      (df.map val).sum := by
  unfold groupedMean
  rw [List.map_map]
  have hmap : (sortedKeys key df).map
      ((fun p : α × ℚ => p.2 * ((groupRows key p.1 df).length : ℚ)) ∘
        (fun k => (k, ((groupRows key k df).map val).sum /
          ((groupRows key k df).length : ℚ)))) =
      (sortedKeys key df).map
        (fun k => ((groupRows key k df).map val).sum) := by
    apply List.map_congr_left
    intro k hk
    simp only [Function.comp]
    have hne := groupRows_ne_nil key df k hk
    have hlen : ((groupRows key k df).length : ℚ) ≠ 0 := by
      rw [Nat.cast_ne_zero]
      simpa [List.length_eq_zero] using hne
    exact div_mul_cancel₀ _ hlen
  rw [hmap]
  exact sum_groupSums key val df (sortedKeys key df) (nodup_sortedKeys key df)
    (fun r hr => (mem_sortedKeys key df (key r)).mpr (List.mem_map_of_mem _ hr))

/-- C4: for each of the three grouped-mean aggregates, the sum over the
groups of (group mean × group row count) equals the sum of
`Price_per_hour` over the whole filtered subset. -/
theorem claim_C4_grouped_mean_totals (df : List Row) :
    ((avg_price_by_tier df).map
      (fun p => p.2 * ((groupRows Row.Capacity_tier p.1 df).length : ℚ))).sum =
      (df.map Row.Price_per_hour).sum ∧
    ((avg_price_by_time df).map
      (fun p => p.2 * ((groupRows Row.Time_of_day p.1 df).length : ℚ))).sum =
      (df.map Row.Price_per_hour).sum ∧
    ((avg_price_by_duration df).map
      (fun p => p.2 *
        ((groupRows Row.Minimum_Duration_per_hour p.1 df).length : ℚ))).sum =
      (df.map Row.Price_per_hour).sum :=
  ⟨groupedMean_weighted_sum Row.Capacity_tier Row.Price_per_hour df,
   groupedMean_weighted_sum Row.Time_of_day Row.Price_per_hour df,
   groupedMean_weighted_sum Row.Minimum_Duration_per_hour Row.Price_per_hour df⟩

/-- The first components of a grouped mean are exactly the sorted distinct
keys. -/
theorem map_fst_groupedMean {α : Type} [DecidableEq α] [LinearOrder α]
    (key : Row → α) (val : Row → ℚ) (df : List Row) :
    (groupedMean key val df).map Prod.fst = sortedKeys key df := by
  unfold groupedMean
  rw [List.map_map]
  exact List.map_id _

/-- C7: the duration series has one entry per distinct
`Minimum_Duration_per_hour` value of the filtered subset, each carrying
the mean `Price_per_hour` of its group, with the durations in strictly
ascending order. -/
theorem claim_C7_duration_series_shape (df : List Row) :
    List.Sorted (· < ·) ((avg_price_by_duration df).map Prod.fst) ∧
    (∀ d : ℚ, d ∈ (avg_price_by_duration df).map Prod.fst ↔
      d ∈ df.map Row.Minimum_Duration_per_hour) ∧
    (∀ p ∈ avg_price_by_duration df,
      p.2 = ((groupRows Row.Minimum_Duration_per_hour p.1 df).map
          Row.Price_per_hour).sum /
        ((groupRows Row.Minimum_Duration_per_hour p.1 df).length : ℚ)) := by
  have hfst : (avg_price_by_duration df).map Prod.fst =
      sortedKeys Row.Minimum_Duration_per_hour df :=
    map_fst_groupedMean Row.Minimum_Duration_per_hour Row.Price_per_hour df
  refine ⟨?_, ?_, ?_⟩
  · rw [hfst]
    exact (sorted_sortedKeys Row.Minimum_Duration_per_hour df).lt_of_le
      (nodup_sortedKeys Row.Minimum_Duration_per_hour df)
  · intro d
    rw [hfst]
    exact mem_sortedKeys Row.Minimum_Duration_per_hour df d
  · intro p hp
    unfold avg_price_by_duration groupedMean at hp
    rw [List.mem_map] at hp
    obtain ⟨k, hk, rfl⟩ := hp
    rfl

/-- Witness for C7 at a concrete dataset. -/
theorem claim_C7_witness :
    List.Sorted (· < ·) ((avg_price_by_duration sampleDf).map Prod.fst) :=
  (claim_C7_duration_series_shape sampleDf).1

/-- C6: the pivot grid is indexed by exactly the `Capacity_tier` and
`Time_of_day` values of the filtered subset; a cell with at least one
matching row holds the mean `Cost_per_person` of those rows, and a cell
with no matching row is undefined (`none`, rendered blank), never zero. -/
theorem claim_C6_pivot_grid (df : List Row) :
    (∀ t, t ∈ pivotIndex df ↔ t ∈ df.map Row.Capacity_tier) ∧
    (∀ t, t ∈ pivotCols df ↔ t ∈ df.map Row.Time_of_day) ∧
    (∀ tier time,
      (df.filter (fun r => r.Capacity_tier = tier ∧ r.Time_of_day = time) ≠ [] →
        pivotCell df tier time = some
          (((df.filter (fun r => r.Capacity_tier = tier ∧
              r.Time_of_day = time)).map Row.Cost_per_person).sum /
            ((df.filter (fun r => r.Capacity_tier = tier ∧
              r.Time_of_day = time)).length : ℚ))) ∧
      (df.filter (fun r => r.Capacity_tier = tier ∧ r.Time_of_day = time) = [] →
        pivotCell df tier time = none)) := by
  refine ⟨fun t => mem_sortedKeys Row.Capacity_tier df t,
    fun t => mem_sortedKeys Row.Time_of_day df t, ?_⟩
  intro tier time
  constructor
  · intro hne
    unfold pivotCell meanQ
    rw [if_neg (by simpa [List.map_eq_nil_iff] using hne), List.length_map]
  · intro hnil
    unfold pivotCell
    rw [hnil]
    rfl

/-- Witness for C6 at a concrete dataset: the (Large, Morning) cell has no
matching row and is blank. -/
theorem claim_C6_witness : pivotCell sampleDf "Large" "Morning" = none :=
  ((claim_C6_pivot_grid sampleDf).2.2 "Large" "Morning").2 (by decide)

/-- Two rows with equal `Price_per_hour`: a tie for line 146's sort. -/
def tieDf : List Row :=
  [mkRow "OrgA" "Morning" "Coventry" "Small" 2 10 5 1 "R1",
   mkRow "OrgB" "Evening" "Coventry" "Large" 1 10 20 2 "R2"]

/-- The tie-reversing reordering of `tieDf`. -/
def tieSwapped : List Row :=
  [mkRow "OrgB" "Evening" "Coventry" "Large" 1 10 20 2 "R2",
   mkRow "OrgA" "Morning" "Coventry" "Small" 2 10 5 1 "R1"]

/-- The tie-stable run of line 146's sort is a reordering of the subset. -/
theorem stableRun_perm (df : List Row) :
    ((List.insertionSort priceDescIdx df.enum).map Prod.snd).Perm df := by
  have hperm := (List.perm_insertionSort priceDescIdx df.enum).map Prod.snd
  rwa [List.enum_map_snd] at hperm

/-- The tie-stable run of line 146's sort is descending in
`Price_per_hour`. -/
theorem stableRun_sorted_desc (df : List Row) :
    List.Sorted (fun a b : Row => b.Price_per_hour ≤ a.Price_per_hour)
      ((List.insertionSort priceDescIdx df.enum).map Prod.snd) := by
  apply List.pairwise_map.mpr
  apply (List.sorted_insertionSort priceDescIdx df.enum).imp
  intro a b hab
  rcases hab with h | ⟨h, _⟩
  · exact le_of_lt h
  · exact le_of_eq h.symm

/-- `top_rooms` is one admissible result of line 146. -/
theorem top_rooms_admissible (df : List Row) : IsTopRooms df (top_rooms df) := by
  refine ⟨(List.insertionSort priceDescIdx df.enum).map Prod.snd,
    ⟨stableRun_perm df, stableRun_sorted_desc df⟩, ?_⟩
  unfold top_rooms topPairs
  rw [List.map_take]

/-- C5, counterexample to the claim as stated: on a subset with a price
tie, reversing the tied rows is an admissible result of
`sort_values(by="Price_per_hour", ascending=False).head(5)` under the
default (not documented as stable) sort kind, and it differs from the
prefix of the stable descending sort — the code does not guarantee the
stable original-order tie-break. -/
theorem claim_C5_counterexample :
    IsTopRooms tieDf tieSwapped ∧ tieSwapped ≠ top_rooms tieDf := by
  constructor
  · refine ⟨tieSwapped, ⟨?_, ?_⟩, rfl⟩
    · unfold tieDf tieSwapped
      exact List.Perm.swap _ _ []
    · decide
  · decide

/-- C5 (amended): the top-5 aggregate is `head(5)` of a full descending
sort by `Price_per_hour` whose tie order is unspecified: every admissible
result has `min 5 n` rows, is sorted descending by `Price_per_hour`, and,
when the subset has at most five rows, is a permutation of the whole
subset; the tie-stable execution `top_rooms` is one admissible result. -/
theorem claim_C5_top_rooms_possible_results (df : List Row) :
    (∀ out, IsTopRooms df out →
      out.length = min 5 df.length ∧
      List.Sorted (fun a b : Row => b.Price_per_hour ≤ a.Price_per_hour)
        out ∧
      (df.length ≤ 5 → out.Perm df)) ∧
    IsTopRooms df (top_rooms df) := by
  refine ⟨?_, top_rooms_admissible df⟩
  rintro out ⟨sorted, ⟨hperm, hsort⟩, rfl⟩
  refine ⟨?_, ?_, ?_⟩
  · rw [List.length_take, hperm.length_eq]
  · exact List.Pairwise.sublist (List.take_sublist 5 sorted) hsort
  · intro hlen
    rw [List.take_of_length_le (by rw [hperm.length_eq]; exact hlen)]
    exact hperm

/-- Witness for the amended C5 at a concrete dataset, discharging the
admissibility hypothesis with the tie-stable execution. -/
theorem claim_C5_amended_witness :
    (top_rooms sampleDf).length = min 5 sampleDf.length ∧
    List.Sorted (fun a b : Row => b.Price_per_hour ≤ a.Price_per_hour)
      (top_rooms sampleDf) ∧
    (sampleDf.length ≤ 5 → (top_rooms sampleDf).Perm sampleDf) :=
  (claim_C5_top_rooms_possible_results sampleDf).1 (top_rooms sampleDf)
    (claim_C5_top_rooms_possible_results sampleDf).2
